import Mathlib

/-!
Shallow embedding of `src/Chatbot.tsx` (a single React component) and
verification of its specification claims.

Modelling conventions:
* JavaScript strings are Lean `String`s (a `String` in this Lean version is a
  structure around `List Char`); the JS string operations used by the source
  (`trim`, `toLowerCase`, `includes`, `split`, `startsWith`, first-occurrence
  `replace`, global regex replaces) are implemented below, faithful to their
  JS semantics on the fragments the component exercises.
* JSON values are the inductive `Json`; numbers keep their raw lexeme, since
  the component only ever interpolates them into template strings.
* `JSON.parse` is the executable `parseJson` below; `undefined` is `none` in
  `Option Json`, and JS property/element access (which throws a `TypeError`
  on `undefined`/`null` receivers) is `jsGet`/`jsIndex` in `Except Unit`.
* Network calls (`axios.get`) are an oracle `Net` mapping requests to either
  a thrown error or a parsed JSON body; the calls a dispatch makes are
  collected so that "no network call" claims are statable.
* React state updates are explicit state passing; `uuidv4()` and
  `new Date().toISOString()` are an explicit supply of (id, timestamp) pairs,
  with freshness/monotonicity as hypotheses where a claim needs them.
-/

set_option autoImplicit false

namespace Chatbot

/-! ### JS string primitives -/

/-- Whitespace recognized by `String.prototype.trim` (ASCII fragment). -/
def isWsC (c : Char) : Bool :=
  c = ' ' || c = '\t' || c = '\n' || c = '\r'

/-- Trim on character lists: drop whitespace from both ends. -/
def trimL (l : List Char) : List Char :=
  ((l.dropWhile isWsC).reverse.dropWhile isWsC).reverse

/-- `s.trim()`. -/
def jsTrim (s : String) : String :=
  String.mk (trimL s.toList)

/-- `s.toLowerCase()` (ASCII fragment of the Unicode mapping). -/
def jsToLower (s : String) : String :=
  String.mk (s.toList.map Char.toLower)

/-- `s.startsWith(p)`. -/
def jsStartsWith (s p : String) : Bool :=
  p.toList.isPrefixOf s.toList

/-- Does `l` contain `sep` as a contiguous run? (`String.prototype.includes`.) -/
def containsSub (sep : List Char) : List Char → Bool
  | [] => sep.isEmpty
  | c :: cs => sep.isPrefixOf (c :: cs) || containsSub sep cs

/-- `s.includes(sub)`. -/
def containsStr (s sub : String) : Bool :=
  containsSub sub.toList s.toList

/-- `s.split(sep)` for a non-empty string separator, fuel-indexed so it
reduces definitionally (fuel `≥ length + 1` always suffices, since every
recursive call consumes at least one character). -/
def jsSplitF (sep : List Char) : Nat → List Char → List (List Char)
  | 0, _ => [[]]
  | _ + 1, [] => [[]]
  | fuel + 1, c :: cs =>
    if !sep.isEmpty && sep.isPrefixOf (c :: cs) then
      [] :: jsSplitF sep fuel ((c :: cs).drop sep.length)
    else
      match jsSplitF sep fuel cs with
      | [] => [[c]]
      | h :: t => (c :: h) :: t

/-- `s.split(sep)`. -/
def jsSplit (sep s : String) : List String :=
  (jsSplitF sep.toList (s.toList.length + 1) s.toList).map String.mk

/-- Replace the first occurrence of `pat` in a character list by `rep`
(`String.prototype.replace` with a string pattern). -/
def replFirstAux (pat rep : List Char) : List Char → List Char
  | [] => []
  | c :: cs =>
    if pat.isPrefixOf (c :: cs) then rep ++ ((c :: cs).drop pat.length)
    else c :: replFirstAux pat rep cs

/-- `s.replace(pat, rep)` with a plain-string pattern: first occurrence only. -/
def jsReplaceFirst (s pat rep : String) : String :=
  String.mk (replFirstAux pat.toList rep.toList s.toList)

/-- `s.replace(/[?.,]/g, '')`: every `?`, `.`, `,` removed. -/
def removePunctL (l : List Char) : List Char :=
  l.filter (fun c => !(c = '?' || c = '.' || c = ','))

/-- String wrapper for `removePunctL`. -/
def removePunct (s : String) : String :=
  String.mk (removePunctL s.toList)

/-- Case-insensitive match of lowercase pattern `p` at the head of `l`
(regex `/i` flag, ASCII fragment). -/
def lowerEq (p l : List Char) : Bool :=
  (l.take p.length).map Char.toLower == p

/-- Global case-insensitive alternation replace by the empty string
(`text.replace(/a|b|…/gi, '')`): scan left to right, at each position try the
alternatives in order, drop the first that matches, otherwise keep the
character.  Fuel-indexed; fuel `≥ length + 1` suffices. -/
def stripAllCIF (pats : List (List Char)) : Nat → List Char → List Char
  | 0, _ => []
  | _ + 1, [] => []
  | fuel + 1, c :: cs =>
    match pats.find? (fun p => !p.isEmpty && lowerEq p (c :: cs)) with
    | some p => stripAllCIF pats fuel ((c :: cs).drop p.length)
    | none => c :: stripAllCIF pats fuel cs

/-- String wrapper for `stripAllCIF` (patterns given in lowercase). -/
def stripCI (pats : List String) (s : String) : String :=
  String.mk (stripAllCIF (pats.map String.toList) (s.toList.length + 1) s.toList)

/-! ### JSON values and `JSON.parse` -/

/-- JSON values.  Numbers keep their source lexeme: the component never does
arithmetic on parsed JSON numbers, it only interpolates them into template
strings. -/
inductive Json where
  | null
  | bool (b : Bool)
  | num (raw : String)
  | str (s : String)
  | arr (elems : List Json)
  | obj (fields : List (String × Json))

/-- Opening brace character (written by code so that no brace appears in a
string literal). -/
def lbraceC : Char := Char.ofNat 123

/-- Closing brace character. -/
def rbraceC : Char := Char.ofNat 125

/-- JSON whitespace. -/
def jsonWs (c : Char) : Bool :=
  c = ' ' || c = '\t' || c = '\n' || c = '\r'

/-- Skip JSON whitespace. -/
def skipWs (l : List Char) : List Char :=
  l.dropWhile jsonWs

/-- Value of a hex digit. -/
def hexVal (c : Char) : Option Nat :=
  if '0' ≤ c ∧ c ≤ '9' then some (c.toNat - '0'.toNat)
  else if 'a' ≤ c ∧ c ≤ 'f' then some (c.toNat - 'a'.toNat + 10)
  else if 'A' ≤ c ∧ c ≤ 'F' then some (c.toNat - 'A'.toNat + 10)
  else none

/-- Single-character JSON string escapes. -/
def escChar (c : Char) : Option Char :=
  if c = '"' then some '"'
  else if c = '\\' then some '\\'
  else if c = '/' then some '/'
  else if c = 'b' then some (Char.ofNat 8)
  else if c = 'f' then some (Char.ofNat 12)
  else if c = 'n' then some '\n'
  else if c = 'r' then some '\r'
  else if c = 't' then some '\t'
  else none

/-- Parse the body of a JSON string (after the opening quote); returns the
decoded characters and the rest of the input. -/
def parseJStringAux : List Char → Option (List Char × List Char)
  | [] => none
  | '"' :: cs => some ([], cs)
  | '\\' :: 'u' :: a :: b :: c :: d :: cs => do
    let va ← hexVal a
    let vb ← hexVal b
    let vc ← hexVal c
    let vd ← hexVal d
    let (s, r) ← parseJStringAux cs
    some (Char.ofNat (((va * 16 + vb) * 16 + vc) * 16 + vd) :: s, r)
  | '\\' :: e :: cs => do
    let ec ← escChar e
    let (s, r) ← parseJStringAux cs
    some (ec :: s, r)
  | c :: cs => do
    let (s, r) ← parseJStringAux cs
    some (c :: s, r)

/-- Parse a JSON number lexeme (kept raw). -/
def parseJNumber (l : List Char) : Option (String × List Char) :=
  let (sign, l₁) := match l with
    | '-' :: rest => (['-'], rest)
    | _ => (([] : List Char), l)
  let intDigits := l₁.takeWhile Char.isDigit
  if intDigits.isEmpty then none
  else
    -- JSON forbids leading zeros on a multi-digit integer part
    if intDigits.length > 1 ∧ intDigits.headD '0' = '0' then none
    else
      let l₂ := l₁.drop intDigits.length
      let (fracPart, l₃) := match l₂ with
        | '.' :: rest =>
          let ds := rest.takeWhile Char.isDigit
          if ds.isEmpty then (none, l₂) else (some ('.' :: ds), rest.drop ds.length)
        | _ => (none, l₂)
      match fracPart with
      | none =>
        match l₂ with
        | '.' :: _ => none
        | _ => expPart sign intDigits [] l₂
      | some fp => expPart sign intDigits fp l₃
where
  /-- Parse the optional exponent and assemble the lexeme. -/
  expPart (sign intDigits fracDs : List Char) (l : List Char) :
      Option (String × List Char) :=
    match l with
    | 'e' :: rest => expDigits sign intDigits fracDs ['e'] rest
    | 'E' :: rest => expDigits sign intDigits fracDs ['E'] rest
    | _ => some (String.mk (sign ++ intDigits ++ fracDs), l)
  /-- Parse the exponent digits (with optional sign). -/
  expDigits (sign intDigits fracDs eMark : List Char) (l : List Char) :
      Option (String × List Char) :=
    let (eSign, l') := match l with
      | '+' :: rest => (['+'], rest)
      | '-' :: rest => (['-'], rest)
      | _ => (([] : List Char), l)
    let ds := l'.takeWhile Char.isDigit
    if ds.isEmpty then none
    else some (String.mk (sign ++ intDigits ++ fracDs ++ eMark ++ eSign ++ ds),
               l'.drop ds.length)

mutual

/-- Parse one JSON value; fuel bounds the nesting work. -/
def parseValueF : Nat → List Char → Option (Json × List Char)
  | 0, _ => none
  | fuel + 1, l =>
    match skipWs l with
    | [] => none
    | c :: cs =>
      if c = '"' then
        match parseJStringAux cs with
        | some (s, r) => some (.str (String.mk s), r)
        | none => none
      else if c = '[' then parseArrayBody fuel (skipWs cs)
      else if c = lbraceC then parseObjectBody fuel (skipWs cs)
      else if ['n', 'u', 'l', 'l'].isPrefixOf (c :: cs) then
        some (.null, (c :: cs).drop 4)
      else if ['t', 'r', 'u', 'e'].isPrefixOf (c :: cs) then
        some (.bool true, (c :: cs).drop 4)
      else if ['f', 'a', 'l', 's', 'e'].isPrefixOf (c :: cs) then
        some (.bool false, (c :: cs).drop 5)
      else
        match parseJNumber (c :: cs) with
        | some (raw, r) => some (.num raw, r)
        | none => none

/-- Parse an array body after `[` (whitespace already skipped). -/
def parseArrayBody : Nat → List Char → Option (Json × List Char)
  | 0, _ => none
  | fuel + 1, l =>
    match l with
    | ']' :: cs => some (.arr [], cs)
    | l' =>
      match parseArrayElems fuel l' with
      | some (es, r) => some (.arr es, r)
      | none => none

/-- Parse one-or-more comma-separated array elements, then `]`. -/
def parseArrayElems : Nat → List Char → Option (List Json × List Char)
  | 0, _ => none
  | fuel + 1, l => do
    let (v, r) ← parseValueF fuel l
    match skipWs r with
    | ',' :: r' =>
      let (es, r'') ← parseArrayElems fuel r'
      some (v :: es, r'')
    | ']' :: r' => some ([v], r')
    | _ => none

/-- Parse an object body after the opening brace (whitespace skipped). -/
def parseObjectBody : Nat → List Char → Option (Json × List Char)
  | 0, _ => none
  | fuel + 1, l =>
    if l.headD ' ' = rbraceC then some (.obj [], l.drop 1)
    else
      match parseObjectFields fuel l with
      | some (fs, r) => some (.obj fs, r)
      | none => none

/-- Parse one-or-more comma-separated `"key": value` pairs, then `}`. -/
def parseObjectFields : Nat → List Char → Option (List (String × Json) × List Char)
  | 0, _ => none
  | fuel + 1, l =>
    match skipWs l with
    | '"' :: cs => do
      let (k, r) ← parseJStringAux cs
      match skipWs r with
      | ':' :: r' => do
        let (v, r'') ← parseValueF fuel r'
        match skipWs r'' with
        | ',' :: r₃ =>
          let (fs, r₄) ← parseObjectFields fuel r₃
          some ((String.mk k, v) :: fs, r₄)
        | c :: r₃ =>
          if c = rbraceC then some ([(String.mk k, v)], r₃) else none
        | [] => none
      | _ => none
    | _ => none

end

/-- `JSON.parse`: parse a complete JSON document; `none` models a thrown
`SyntaxError`. -/
def parseJson (s : String) : Option Json :=
  match parseValueF (s.toList.length + 1) s.toList with
  | some (j, rest) => if (skipWs rest).isEmpty then some j else none
  | none => none

/-! ### JS property access, truthiness, template display -/

/-- JS property access `v.k` on a possibly-`undefined` receiver: accessing a
property of `undefined` or `null` throws a `TypeError`; on an object it looks
the key up (missing key gives `undefined`); on other values the named
properties the component uses are all `undefined`. -/
def jsGet : Option Json → String → Except Unit (Option Json)
  | none, _ => .error ()
  | some .null, _ => .error ()
  | some (.obj fs), k => .ok (List.lookup k fs)
  | some _, _ => .ok none

/-- JS element access `v[i]` with a numeric index: throws on
`undefined`/`null`, indexes arrays and strings, reads property `"i"` of an
object, and gives `undefined` otherwise. -/
def jsIndex : Option Json → Nat → Except Unit (Option Json)
  | none, _ => .error ()
  | some .null, _ => .error ()
  | some (.arr xs), i => .ok xs[i]?
  | some (.obj fs), i => .ok (List.lookup (toString i) fs)
  | some (.str s), i => .ok ((s.toList[i]?).map (fun c => .str (String.mk [c])))
  | some _, _ => .ok none

/-- Is the value nullish (`undefined` or `null`), as tested by `?.`. -/
def isNullish : Option Json → Bool
  | none => true
  | some .null => true
  | some _ => false

/-- Is a JSON number lexeme truthy (some digit other than `0` appears)? -/
def numTruthy (raw : String) : Bool :=
  raw.toList.any (fun c => c.isDigit && !(c = '0'))

/-- JS truthiness of a possibly-`undefined` JSON value. -/
def jsTruthy : Option Json → Bool
  | none => false
  | some .null => false
  | some (.bool b) => b
  | some (.num raw) => numTruthy raw
  | some (.str s) => !(s = "")
  | some (.arr _) => true
  | some (.obj _) => true

mutual

/-- String interpolation of a JSON value (`${v}` in a template literal):
arrays join their elements' interpolations with commas, objects print as
`[object Object]`. -/
def jsToStr : Json → String
  | .null => "null"
  | .bool b => if b then "true" else "false"
  | .num raw => raw
  | .str s => s
  | .arr xs => String.intercalate "," (jsToStrList xs)
  | .obj _ => "[object Object]"

/-- Interpolations of a list of JSON values. -/
def jsToStrList : List Json → List String
  | [] => []
  | j :: js => jsToStr j :: jsToStrList js

end

/-- String interpolation of a possibly-`undefined` JSON value. -/
def jsDisplay : Option Json → String
  | none => "undefined"
  | some j => jsToStr j

/-! ### The arithmetic fragment of `Function("return (…)")()`

The source evaluates `/calc` expressions with a dynamic JS evaluator.  We
embed the arithmetic fragment the specification is about: non-negative
integer literals, `+`, `-` (binary and unary), `*` and parentheses; inputs
outside this fragment evaluate to `none` (a thrown error) — in particular any
input containing an identifier, which throws a `ReferenceError` in JS. -/

/-- Skip spaces between arithmetic tokens. -/
def skipSp (l : List Char) : List Char :=
  l.dropWhile (fun c => c = ' ' || c = '\t')

/-- Decimal digits to a natural number. -/
def digitsToNat (ds : List Char) : Nat :=
  ds.foldl (fun a c => a * 10 + (c.toNat - 48)) 0

/-- Parse a non-negative integer literal. -/
def parseNatNum (l : List Char) : Option (Int × List Char) :=
  let l' := skipSp l
  let ds := l'.takeWhile Char.isDigit
  if ds.isEmpty then none
  else some (Int.ofNat (digitsToNat ds), l'.drop ds.length)

/-- Parse an atom — integer, unary minus, or parenthesized expression — given
a parser `sumP` for full expressions (used inside parentheses). -/
def parseAtomH (sumP : List Char → Option (Int × List Char)) :
    Nat → List Char → Option (Int × List Char)
  | 0, _ => none
  | fuel + 1, l =>
    match skipSp l with
    | '(' :: rest =>
      match sumP rest with
      | some (v, r) =>
        match skipSp r with
        | ')' :: r' => some (v, r')
        | _ => none
      | none => none
    | '-' :: rest =>
      match parseAtomH sumP fuel rest with
      | some (v, r) => some (-v, r)
      | none => none
    | l' => parseNatNum l'

/-- Left-associated chain of `*` over atoms. -/
def parseProdRestH (atomP : List Char → Option (Int × List Char)) :
    Nat → Int → List Char → Option (Int × List Char)
  | 0, _, _ => none
  | fuel + 1, acc, l =>
    match skipSp l with
    | '*' :: rest =>
      match atomP rest with
      | some (v, r) => parseProdRestH atomP fuel (acc * v) r
      | none => none
    | _ => some (acc, l)

/-- Left-associated chain of `+`/`-` over products. -/
def parseSumRestH (prodP : List Char → Option (Int × List Char)) :
    Nat → Int → List Char → Option (Int × List Char)
  | 0, _, _ => none
  | fuel + 1, acc, l =>
    match skipSp l with
    | '+' :: rest =>
      match prodP rest with
      | some (v, r) => parseSumRestH prodP fuel (acc + v) r
      | none => none
    | '-' :: rest =>
      match prodP rest with
      | some (v, r) => parseSumRestH prodP fuel (acc - v) r
      | none => none
    | _ => some (acc, l)

/-- Parse a full arithmetic expression (`fuel` bounds parenthesis nesting). -/
def parseSumF : Nat → List Char → Option (Int × List Char)
  | 0, _ => none
  | fuel + 1, l =>
    let atomP := fun l' => parseAtomH (parseSumF fuel) (l'.length + 1) l'
    let prodP := fun l' =>
      match atomP l' with
      | some (v, r) => parseProdRestH atomP (r.length + 1) v r
      | none => none
    match prodP l with
    | some (v, r) => parseSumRestH prodP (r.length + 1) v r
    | none => none

/-- The `/calc` evaluator: the arithmetic fragment of the source's dynamic
evaluation, `none` = thrown error. -/
def evalArith (s : String) : Option Int :=
  match parseSumF (s.toList.length + 1) s.toList with
  | some (v, rest) => if (skipSp rest).isEmpty then some v else none
  | none => none

/-! ### Data model: messages -/

/-- `sender` field. -/
inductive Sender where
  | user
  | assistant
deriving DecidableEq

/-- `type` field. -/
inductive MType where
  | text
  | plugin
deriving DecidableEq

/-- The `Message` interface of the source. -/
structure Msg where
  id : String
  sender : Sender
  content : String
  type : MType
  pluginName : Option String
  pluginData : Option Json
  timestamp : String

/-- `createMessage` of the source; `newId` stands for the `uuidv4()` call and
`newTimestamp` for `new Date().toISOString()`. -/
def createMessage (newId newTimestamp : String) (sender : Sender)
    (content : String) (mtype : MType) (pluginName : Option String)
    (pluginData : Option Json) : Msg :=
  ⟨newId, sender, content, mtype, pluginName, pluginData, newTimestamp⟩

/-! ### `parseNaturalLanguage` -/

/-- `parseNaturalLanguage` of the source: natural-language text to an
optional slash-command string.  Rules tried in order. -/
def parseNaturalLanguage (text : String) : Option String :=
  let lower := jsToLower text
  if containsStr lower "weather in" then
    let city := removePunct (jsTrim (((jsSplit "weather in" lower)[1]?).getD ""))
    some ("/weather " ++ city)
  else if jsStartsWith lower "what is" || jsStartsWith lower "calculate" then
    let expression := jsTrim (stripCI ["what is", "calculate"] text)
    some ("/calc " ++ expression)
  else if jsStartsWith lower "define" || jsStartsWith lower "what does" then
    let word := removePunct (jsTrim (stripCI ["define", "what does", "mean"] text))
    some ("/define " ++ word)
  else none

/-! ### Network oracle and dispatch -/

/-- One outbound HTTP request made by the component. -/
inductive NetCall where
  | weather (city : String)
  | define (word : String)
deriving DecidableEq

/-- Network oracle: for each request, either the parsed JSON body of a
successful response or a thrown error (network failure / non-2xx status). -/
structure Net where
  weatherGet : String → Except Unit Json
  dictGet : String → Except Unit Json

/-- Build the weather success content
`` `Weather in ${city}: ${weather.weather[0].description}, ${weather.main.temp}°C` ``;
the unguarded accesses can throw on a malformed body. -/
def weatherMessageContent (city : String) (data : Json) : Except Unit String := do
  let warr ← jsGet (some data) "weather"
  let w0 ← jsIndex warr 0
  let desc ← jsGet w0 "description"
  let mn ← jsGet (some data) "main"
  let temp ← jsGet mn "temp"
  pure ("Weather in " ++ city ++ ": " ++ jsDisplay desc ++ ", " ++ jsDisplay temp ++ "°C")

/-- `res.data[0]?.meanings[0]?.definitions[0]?.definition`: optional chaining
short-circuits on nullish links, but `meanings` or `definitions` being absent
as a field makes the following `[0]` throw a `TypeError`. -/
def extractDefinition (data : Json) : Except Unit (Option Json) := do
  let e0 ← jsIndex (some data) 0
  if isNullish e0 then pure none
  else do
    let ms ← jsGet e0 "meanings"
    let m0 ← jsIndex ms 0
    if isNullish m0 then pure none
    else do
      let ds ← jsGet m0 "definitions"
      let d0 ← jsIndex ds 0
      if isNullish d0 then pure none
      else jsGet d0 "definition"

/-- The command dispatch inside `handleSend`'s timeout callback: given the
(rewritten) command and the `(id, timestamp)` pair for the `createMessage`
call of the resulting message, produce the list of messages appended (always
exactly one) and the network calls issued. -/
def dispatchAppends (net : Net) (idr tsr : String) (command : String) :
    List Msg × List NetCall :=
  if jsStartsWith command "/weather" then
    let city := jsTrim (jsReplaceFirst command "/weather" "")
    if city = "" then
      ([createMessage idr tsr .assistant "Please provide a city." .text none none], [])
    else
      match net.weatherGet city with
      | .error _ =>
        ([createMessage idr tsr .assistant "City not found or API error." .text none none],
         [.weather city])
      | .ok data =>
        match weatherMessageContent city data with
        | .error _ =>
          ([createMessage idr tsr .assistant "City not found or API error." .text none none],
           [.weather city])
        | .ok content =>
          ([createMessage idr tsr .assistant content .plugin (some "weather") (some data)],
           [.weather city])
  else if jsStartsWith command "/calc" then
    let expression := jsTrim (jsReplaceFirst command "/calc" "")
    match evalArith expression with
    | some v =>
      ([createMessage idr tsr .assistant ("Result: " ++ toString v) .plugin
          (some "calc") (some (.num (toString v)))], [])
    | none =>
      ([createMessage idr tsr .assistant "Invalid expression" .text none none], [])
  else if jsStartsWith command "/define" then
    let word := jsTrim (jsReplaceFirst command "/define" "")
    match net.dictGet word with
    | .error _ =>
      ([createMessage idr tsr .assistant "Error fetching definition" .text none none],
       [.define word])
    | .ok data =>
      match extractDefinition data with
      | .error _ =>
        ([createMessage idr tsr .assistant "Error fetching definition" .text none none],
         [.define word])
      | .ok dv =>
        let definition := if jsTruthy dv then jsDisplay dv else "Definition not found"
        ([createMessage idr tsr .assistant ("Definition of " ++ word ++ ": " ++ definition)
            .plugin (some "define") (some data)], [.define word])
  else
    ([createMessage idr tsr .assistant "Unrecognized command." .text none none], [])

/-! ### Component state and `handleSend` -/

/-- The component's mutable state: the transcript, the input box, and the
loading flag. -/
structure ChatState where
  messages : List Msg
  input : String
  loading : Bool

/-- The observable effect of one `handleSend` call: the state after the
synchronous part (user message and `Typing...` placeholder appended), the
state after the timeout callback ran to completion, and the network calls
made. -/
structure SendTrace where
  mid : ChatState
  final : ChatState
  calls : List NetCall

/-- `handleSend` of the source as one submission's state transformer.
`supply k` is the `(uuidv4(), toISOString())` pair of the `k`-th
`createMessage` call (0 = user message, 1 = placeholder, 2 = result). -/
def handleSend (net : Net) (supply : Nat → String × String) (st : ChatState) :
    SendTrace :=
  if jsTrim st.input = "" then ⟨st, st, []⟩
  else
    let userMessage :=
      createMessage (supply 0).1 (supply 0).2 .user st.input .text none none
    let loadingMsg :=
      createMessage (supply 1).1 (supply 1).2 .assistant "Typing..." .text none none
    let mid : ChatState := ⟨st.messages ++ [userMessage] ++ [loadingMsg], "", true⟩
    -- setTimeout callback:
    let afterRemove := mid.messages.filter (fun m => m.id != loadingMsg.id)
    let command0 := jsTrim st.input
    let command := (parseNaturalLanguage command0).getD command0
    let out := dispatchAppends net (supply 2).1 (supply 2).2 command
    ⟨mid, ⟨afterRemove ++ out.1, "", false⟩, out.2⟩

/-! ### Persistence: the `chatMessages` slot

`JSON.stringify`/`JSON.parse` are the platform's faithful encoding of JSON
trees as strings; the round-trip claim is stated at the tree level:
serialization is `serializeMessages` (undefined-valued optional fields are
dropped, exactly as `JSON.stringify` drops them) and rehydration reads the
tree back through the `Message` shape. -/

/-- `sender` as stored in JSON. -/
def senderStr : Sender → String
  | .user => "user"
  | .assistant => "assistant"

/-- `type` as stored in JSON. -/
def typeStr : MType → String
  | .text => "text"
  | .plugin => "plugin"

/-- Read a `sender` string back. -/
def decodeSender : String → Option Sender
  | "user" => some .user
  | "assistant" => some .assistant
  | _ => none

/-- Read a `type` string back. -/
def decodeType : String → Option MType
  | "text" => some .text
  | "plugin" => some .plugin
  | _ => none

/-- `JSON.stringify` of one message: the object literal of `createMessage`,
with `undefined`-valued keys dropped. -/
def serializeMsg (m : Msg) : Json :=
  .obj ([("id", .str m.id), ("sender", .str (senderStr m.sender)),
         ("content", .str m.content), ("type", .str (typeStr m.type))]
    ++ (match m.pluginName with
        | some p => [("pluginName", Json.str p)]
        | none => [])
    ++ (match m.pluginData with
        | some d => [("pluginData", d)]
        | none => [])
    ++ [("timestamp", .str m.timestamp)])

/-- Read one message back from its JSON object. -/
def rehydrateMsg (j : Json) : Option Msg :=
  match j with
  | .obj fs =>
    match List.lookup "id" fs, List.lookup "sender" fs, List.lookup "content" fs,
        List.lookup "type" fs, List.lookup "timestamp" fs with
    | some (.str i), some (.str sd), some (.str c), some (.str ty), some (.str ts) =>
      match decodeSender sd, decodeType ty with
      | some sender, some mtype =>
        let pn := match List.lookup "pluginName" fs with
          | some (.str p) => some p
          | _ => none
        let pd := List.lookup "pluginData" fs
        some ⟨i, sender, c, mtype, pn, pd, ts⟩
      | _, _ => none
    | _, _, _, _, _ => none
  | _ => none

/-- `JSON.stringify(messages)` at the tree level. -/
def serializeMessages (l : List Msg) : Json :=
  .arr (l.map serializeMsg)

/-- Read a message list back from a JSON tree. -/
def rehydrateList : List Json → Option (List Msg)
  | [] => some []
  | j :: js =>
    match rehydrateMsg j, rehydrateList js with
    | some m, some ms => some (m :: ms)
    | _, _ => none

/-- Rehydrate the transcript from a persisted JSON tree. -/
def rehydrateMessages (j : Json) : Option (List Msg) :=
  match j with
  | .arr xs => rehydrateList xs
  | _ => none

/-- The `useState` initializer:
`const saved = localStorage.getItem('chatMessages'); return saved ? JSON.parse(saved) : []`.
`saved` is `none` when the key is absent; a present value is kept as the raw
string.  The empty string is falsy, so it also yields the empty transcript;
otherwise `JSON.parse` runs and a parse failure is a thrown `SyntaxError`
(`Except.error`), not an empty transcript. -/
def initStore (saved : Option String) : Except Unit Json :=
  match saved with
  | none => .ok (.arr [])
  | some s =>
    if s = "" then .ok (.arr [])
    else
      match parseJson s with
      | some j => .ok j
      | none => .error ()

/-! ### Transcript invariants -/

/-- `pluginName`/`pluginData` only on plugin messages. -/
def pluginFieldsOk (m : Msg) : Prop :=
  (m.pluginName ≠ none ∨ m.pluginData ≠ none) → m.type = MType.plugin

/-- The transcript invariant of the specification: unique ids,
non-decreasing timestamps in append order, and plugin fields only on
plugin-typed messages. -/
def transcriptInvariant (l : List Msg) : Prop :=
  (l.map Msg.id).Nodup
    ∧ List.Chain' (fun a b => a.timestamp ≤ b.timestamp) l
    ∧ ∀ m ∈ l, pluginFieldsOk m

/-! ### Spec-side characterizations (used to state amended claims)

These are written from the specification's words, independently of the
split-scan in `jsSplitF`, and proved equivalent where needed. -/

/-- The characters strictly after the first occurrence of `sep` (empty if
`sep` does not occur). -/
def afterFirstOcc (sep : List Char) : List Char → List Char
  | [] => []
  | c :: cs =>
    if sep.isPrefixOf (c :: cs) then (c :: cs).drop sep.length
    else afterFirstOcc sep cs

/-- The characters strictly before the first occurrence of `sep` (all of the
input if `sep` does not occur). -/
def beforeFirstOcc (sep : List Char) : List Char → List Char
  | [] => []
  | c :: cs =>
    if sep.isPrefixOf (c :: cs) then []
    else c :: beforeFirstOcc sep cs

/-! ### Concrete environments for witnesses and counterexamples -/

/-- A network on which every request fails. -/
def netEmpty : Net :=
  ⟨fun _ => .error (), fun _ => .error ()⟩

/-- A dictionary response body whose single entry has no `meanings` field —
a 200 response with the nested definition field structurally absent. -/
def emptyEntryBody : Json :=
  .arr [.obj []]

/-- A network whose dictionary lookup succeeds with `emptyEntryBody`. -/
def netDefineEmptyEntry : Net :=
  ⟨fun _ => .error (), fun _ => .ok emptyEntryBody⟩

/-- A well-shaped dictionary response body. -/
def goodDefBody : Json :=
  .arr [.obj [("meanings",
    .arr [.obj [("definitions",
      .arr [.obj [("definition", .str "a greeting")]])]])]]

/-- A network whose dictionary lookup succeeds with `goodDefBody`. -/
def netDefineGood : Net :=
  ⟨fun _ => .error (), fun _ => .ok goodDefBody⟩

/-- A concrete `(uuid, timestamp)` supply: distinct ids, equal timestamps. -/
def supplyW : Nat → String × String :=
  fun k => (toString k, "t")

/-! ## Helper lemmas -/

/-- Every dispatch branch appends exactly one message, created by the single
remaining `createMessage` call: it is from the assistant, carries the
supplied id and timestamp, and has plugin fields only when plugin-typed. -/
theorem dispatchAppends_shape (net : Net) (idr tsr command : String) :
    ∃ r calls, dispatchAppends net idr tsr command = ([r], calls)
      ∧ r.sender = .assistant ∧ r.id = idr ∧ r.timestamp = tsr
      ∧ pluginFieldsOk r := by
  unfold dispatchAppends
  dsimp only
  repeat' split
  all_goals
    exact ⟨_, _, rfl, rfl, rfl, rfl, by simp [pluginFieldsOk, createMessage]⟩

/-! ## Claim theorems -/

/-- C1 (counterexample): a stored value that fails to parse does not yield
the empty transcript — the `useState` initializer propagates the parse
error.  Concretely, the stored string consisting of a single opening brace
fails to parse, and initialization throws rather than starting empty. -/
theorem C1_counterexample :
    initStore (some "\x7b") = Except.error ()
      ∧ initStore (some "\x7b") ≠ Except.ok (Json.arr []) :=
  ⟨rfl, fun h => Except.noConfusion h⟩

/-- C1 (amended): on an absent stored value the store starts as the empty
sequence, but for a stored value that fails to parse the initializer
propagates the parse error (it is not guarded), rather than starting
empty. -/
theorem C1_init_amended :
    initStore none = Except.ok (Json.arr [])
      ∧ ∀ s : String, s ≠ "" → parseJson s = none →
          initStore (some s) = Except.error () := by
  refine ⟨rfl, ?_⟩
  intro s hs hp
  simp [initStore, hs, hp]

/-- C1 witness: the amended theorem applied to the concrete corrupt stored
string consisting of one opening brace. -/
theorem C1_init_amended_witness :
    ("\x7b" : String) ≠ "" ∧ parseJson "\x7b" = none
      ∧ initStore (some "\x7b") = Except.error () :=
  ⟨by decide, rfl, C1_init_amended.2 "\x7b" (by decide) rfl⟩

/-- C4 (counterexample): on input `what is 2+2` the rewriter yields
`/calc 2+2` with a single space (the stripped expression is trimmed before
interpolation), not `/calc  2+2` with two spaces as claimed. -/
theorem C4_counterexample :
    parseNaturalLanguage "what is 2+2" = some "/calc 2+2"
      ∧ parseNaturalLanguage "what is 2+2" ≠ some "/calc  2+2" :=
  ⟨rfl, by decide⟩

/-- A command starting with `/define` starts with neither `/weather` nor
`/calc` (they differ at the second character), so the dispatch chain reaches
the define branch. -/
theorem startsWith_define_excl (s : String) (h : jsStartsWith s "/define" = true) :
    jsStartsWith s "/weather" = false ∧ jsStartsWith s "/calc" = false := by
  unfold jsStartsWith at h ⊢
  have e1 : "/define".toList = ['/', 'd', 'e', 'f', 'i', 'n', 'e'] := rfl
  have e2 : "/weather".toList = ['/', 'w', 'e', 'a', 't', 'h', 'e', 'r'] := rfl
  have e3 : "/calc".toList = ['/', 'c', 'a', 'l', 'c'] := rfl
  rw [e1] at h
  rw [e2, e3]
  rcases hl : s.toList with _ | ⟨a, _ | ⟨b, t⟩⟩ <;> rw [hl] at h
  · simp [List.isPrefixOf] at h
  · simp [List.isPrefixOf] at h
  · simp only [List.isPrefixOf, Bool.and_eq_true, beq_iff_eq] at h
    obtain ⟨h1, h2, -⟩ := h
    subst h1
    subst h2
    exact ⟨rfl, rfl⟩

/-- C3: a `/weather` command whose city is empty after stripping the prefix
and trimming yields exactly the assistant text `Please provide a city.` with
no network call; with a non-empty city the dispatch issues exactly the
weather lookup for that city. -/
theorem C3_weather_empty_city (net : Net) (idr tsr command : String)
    (h : jsStartsWith command "/weather" = true) :
    (jsTrim (jsReplaceFirst command "/weather" "") = "" →
        dispatchAppends net idr tsr command
          = ([createMessage idr tsr .assistant "Please provide a city." .text none none], []))
      ∧ (jsTrim (jsReplaceFirst command "/weather" "") ≠ "" →
        (dispatchAppends net idr tsr command).2
          = [.weather (jsTrim (jsReplaceFirst command "/weather" ""))]) := by
  constructor
  · intro hc
    simp [dispatchAppends, h, hc]
  · intro hc
    simp only [dispatchAppends, h, if_true, if_neg hc]
    rcases hg : net.weatherGet (jsTrim (jsReplaceFirst command "/weather" "")) with e | data
    · simp [hg]
    · rcases hw : weatherMessageContent (jsTrim (jsReplaceFirst command "/weather" "")) data
        with e | content <;> simp [hg, hw]

/-- C3 witness: the theorem at the commands `/weather` (city empty after
stripping and trimming: guidance message, no calls) and `/weather london`
(exactly one weather lookup). -/
theorem C3_weather_empty_city_witness :
    dispatchAppends netEmpty "i" "t" "/weather"
        = ([createMessage "i" "t" .assistant "Please provide a city." .text none none], [])
      ∧ (dispatchAppends netEmpty "i" "t" "/weather london").2 = [.weather "london"] :=
  ⟨(C3_weather_empty_city netEmpty "i" "t" "/weather" (by decide)).1 rfl,
   (C3_weather_empty_city netEmpty "i" "t" "/weather london" (by decide)).2 (by decide)⟩

/-- C9: a command starting with none of the three handler prefixes yields
exactly the assistant text `Unrecognized command.` with no network call, and
handler selection is by bare prefix: `/calculator` runs the calculator
handler on the remainder `ulator` (whose evaluation fails), not the
fallthrough. -/
theorem C9_fallthrough :
    (∀ (net : Net) (idr tsr command : String),
        jsStartsWith command "/weather" = false →
        jsStartsWith command "/calc" = false →
        jsStartsWith command "/define" = false →
        dispatchAppends net idr tsr command
          = ([createMessage idr tsr .assistant "Unrecognized command." .text none none], []))
      ∧ (∀ (net : Net) (idr tsr : String),
          jsTrim (jsReplaceFirst "/calculator" "/calc" "") = "ulator"
            ∧ dispatchAppends net idr tsr "/calculator"
              = ([createMessage idr tsr .assistant "Invalid expression" .text none none], [])) := by
  constructor
  · intro net idr tsr command h1 h2 h3
    simp [dispatchAppends, h1, h2, h3]
  · intro net idr tsr
    exact ⟨rfl, rfl⟩

/-- C9 witness: the fallthrough part of the theorem at the command
`hello world`. -/
theorem C9_fallthrough_witness :
    dispatchAppends netEmpty "i" "t" "hello world"
      = ([createMessage "i" "t" .assistant "Unrecognized command." .text none none], []) :=
  C9_fallthrough.1 netEmpty "i" "t" "hello world" (by decide) (by decide) (by decide)

/-- C6 (counterexample): a 200 dictionary response whose first entry has no
`meanings` field leaves the nested definition field structurally absent, yet
the handler produces the assistant text `Error fetching definition` (the
`[0]` after the absent field throws a `TypeError` inside the `try`), not a
plugin message defaulting to `Definition not found`. -/
theorem C6_counterexample :
    dispatchAppends netDefineEmptyEntry "i" "t" "/define hello"
        = ([createMessage "i" "t" .assistant "Error fetching definition" .text none none],
           [.define "hello"])
      ∧ extractDefinition emptyEntryBody = Except.error ()
      ∧ ("Error fetching definition" : String) ≠ "Definition of hello: Definition not found" :=
  ⟨rfl, rfl, by decide⟩

/-- C6 (amended): the handler performs the dictionary lookup; on a response
it extracts `data[0]?.meanings[0]?.definitions[0]?.definition`, where a
nullish link under `?.` (no entries, no first meaning, no first definition)
short-circuits to `undefined` and the content then defaults to
`Definition not found` inside the plugin message — but a response whose
first entry lacks `meanings` or whose first meaning lacks `definitions`
raises a `TypeError`, so the assistant text `Error fetching definition` is
produced on lookup failure or on such shape errors, not only on lookup
failure. -/
theorem C6_define_amended (net : Net) (idr tsr command : String)
    (h : jsStartsWith command "/define" = true) :
    (net.dictGet (jsTrim (jsReplaceFirst command "/define" "")) = .error () →
        dispatchAppends net idr tsr command
          = ([createMessage idr tsr .assistant "Error fetching definition" .text none none],
             [.define (jsTrim (jsReplaceFirst command "/define" ""))]))
      ∧ (∀ data, net.dictGet (jsTrim (jsReplaceFirst command "/define" "")) = .ok data →
          extractDefinition data = .error () →
          dispatchAppends net idr tsr command
            = ([createMessage idr tsr .assistant "Error fetching definition" .text none none],
               [.define (jsTrim (jsReplaceFirst command "/define" ""))]))
      ∧ (∀ data dv, net.dictGet (jsTrim (jsReplaceFirst command "/define" "")) = .ok data →
          extractDefinition data = .ok dv →
          dispatchAppends net idr tsr command
            = ([createMessage idr tsr .assistant
                  ("Definition of " ++ jsTrim (jsReplaceFirst command "/define" "") ++ ": "
                    ++ (if jsTruthy dv = true then jsDisplay dv else "Definition not found"))
                  .plugin (some "define") (some data)],
               [.define (jsTrim (jsReplaceFirst command "/define" ""))]))
      ∧ extractDefinition (.arr []) = .ok none
      ∧ extractDefinition (.arr [.obj []]) = .error () := by
  obtain ⟨hw, hc⟩ := startsWith_define_excl command h
  refine ⟨?_, ?_, ?_, rfl, rfl⟩
  · intro hd
    simp [dispatchAppends, h, hw, hc, hd]
  · intro data hd he
    simp [dispatchAppends, h, hw, hc, hd, he]
  · intro data dv hd he
    simp [dispatchAppends, h, hw, hc, hd, he]

/-- C6 witness: the amended theorem applied to a network returning a
well-shaped dictionary body for `/define hello` — the success path with the
extracted first definition. -/
theorem C6_define_amended_witness :
    dispatchAppends netDefineGood "i" "t" "/define hello"
      = ([createMessage "i" "t" .assistant "Definition of hello: a greeting" .plugin
           (some "define") (some goodDefBody)], [.define "hello"]) := by
  exact (C6_define_amended netDefineGood "i" "t" "/define hello" (by decide)).2.2.1
    goodDefBody (some (.str "a greeting")) rfl rfl

/-- C4 (amended): the rewriter yields `/calc 2+2` (phrase stripped and the
remainder trimmed, leaving a single space after `/calc`), and the calculator
handler on that command yields a plugin message with content `Result: 4`. -/
theorem C4_calc_amended :
    parseNaturalLanguage "what is 2+2" = some "/calc 2+2"
      ∧ ∀ (net : Net) (idr tsr : String),
          dispatchAppends net idr tsr "/calc 2+2"
            = ([createMessage idr tsr .assistant "Result: 4" .plugin (some "calc")
                 (some (.num "4"))], []) :=
  ⟨rfl, fun _ _ _ => rfl⟩

/-- Serializing one message and reading it back restores it exactly, for
every combination of present/absent optional plugin fields. -/
theorem rehydrateMsg_serializeMsg (m : Msg) :
    rehydrateMsg (serializeMsg m) = some m := by
  rcases m with ⟨i, s, c, t, pn, pd, ts⟩
  cases s <;> cases t <;> cases pn <;> cases pd <;> rfl

/-- C7: persisting the transcript (serializing the full sequence into the
storage slot) and rehydrating from the slot restores the identical ordered
sequence — same length, order, and message fields. -/
theorem C7_roundtrip (l : List Msg) :
    rehydrateMessages (serializeMessages l) = some l := by
  induction l with
  | nil => rfl
  | cons m ms ih =>
    have h2 : rehydrateList (ms.map serializeMsg) = some ms := by
      simpa [serializeMessages, rehydrateMessages] using ih
    simp [serializeMessages, rehydrateMessages, rehydrateList,
      rehydrateMsg_serializeMsg m, h2]

/-- C10: a submission whose trimmed input is empty is a no-op — `handleSend`
changes nothing: no user message, no placeholder, no assistant message, no
network call, the loading flag keeps its value, and the serialized
(persisted) transcript is unchanged. -/
theorem C10_empty_noop (net : Net) (supply : Nat → String × String)
    (st : ChatState) (h : jsTrim st.input = "") :
    handleSend net supply st = ⟨st, st, []⟩
      ∧ serializeMessages (handleSend net supply st).final.messages
          = serializeMessages st.messages := by
  have h1 : handleSend net supply st = ⟨st, st, []⟩ := by simp [handleSend, h]
  exact ⟨h1, by rw [h1]⟩

/-- C10 witness: the theorem at a whitespace-only input over an empty
transcript. -/
theorem C10_empty_noop_witness :
    handleSend netEmpty supplyW ⟨[], "   ", false⟩
        = ⟨⟨[], "   ", false⟩, ⟨[], "   ", false⟩, []⟩
      ∧ serializeMessages (handleSend netEmpty supplyW ⟨[], "   ", false⟩).final.messages
          = serializeMessages ([] : List Msg) :=
  C10_empty_noop netEmpty supplyW ⟨[], "   ", false⟩ (by decide)

/-- For a non-empty submission, `handleSend`'s synchronous phase appends the
user message and then the `Typing...` placeholder, and its callback removes
exactly the placeholder (its id is fresh) and appends the single dispatch
result, which carries the third supplied id/timestamp. -/
theorem handleSend_run (net : Net) (supply : Nat → String × String)
    (st : ChatState) (h : ¬jsTrim st.input = "")
    (hne : (supply 0).1 ≠ (supply 1).1)
    (hfresh : ∀ m ∈ st.messages, m.id ≠ (supply 1).1) :
    (handleSend net supply st).mid.messages
        = st.messages
          ++ [createMessage (supply 0).1 (supply 0).2 .user st.input .text none none,
              createMessage (supply 1).1 (supply 1).2 .assistant "Typing..." .text none none]
      ∧ ∃ r : Msg, r.sender = .assistant ∧ r.id = (supply 2).1
          ∧ r.timestamp = (supply 2).2 ∧ pluginFieldsOk r
          ∧ (handleSend net supply st).final.messages
            = st.messages
              ++ [createMessage (supply 0).1 (supply 0).2 .user st.input .text none none, r] := by
  obtain ⟨r, calls, hd, hs, hid, hts, hpl⟩ :=
    dispatchAppends_shape net (supply 2).1 (supply 2).2
      ((parseNaturalLanguage (jsTrim st.input)).getD (jsTrim st.input))
  constructor
  · simp [handleSend, h]
  · refine ⟨r, hs, hid, hts, hpl, ?_⟩
    have hold : st.messages.filter (fun m => m.id != (supply 1).1) = st.messages :=
      List.filter_eq_self.mpr (fun m hm => bne_iff_ne.mpr (hfresh m hm))
    simp [handleSend, h, hd, List.filter_append, hold, List.filter_cons,
      createMessage, hne]

/-- C2: every non-empty submission appends a transient assistant message
with content `Typing...` immediately after the user message; the callback
removes exactly that placeholder by its id, then appends exactly one
resulting assistant message — for every network oracle, hence regardless of
which handler branch runs. -/
theorem C2_typing_placeholder (net : Net) (supply : Nat → String × String)
    (st : ChatState) (h : ¬jsTrim st.input = "")
    (hne : (supply 0).1 ≠ (supply 1).1)
    (hfresh : ∀ m ∈ st.messages, m.id ≠ (supply 1).1) :
    (handleSend net supply st).mid.messages
        = st.messages
          ++ [createMessage (supply 0).1 (supply 0).2 .user st.input .text none none,
              createMessage (supply 1).1 (supply 1).2 .assistant "Typing..." .text none none]
      ∧ ∃ r : Msg, r.sender = .assistant
          ∧ (handleSend net supply st).final.messages
            = st.messages
              ++ [createMessage (supply 0).1 (supply 0).2 .user st.input .text none none,
                  r] := by
  obtain ⟨h1, r, hs, -, -, -, h2⟩ := handleSend_run net supply st h hne hfresh
  exact ⟨h1, r, hs, h2⟩

/-- C2 witness: the theorem at input `hi` over the empty transcript with the
failing network and the concrete supply. -/
theorem C2_typing_placeholder_witness :
    (handleSend netEmpty supplyW ⟨[], "hi", false⟩).mid.messages
        = [createMessage "0" "t" .user "hi" .text none none,
           createMessage "1" "t" .assistant "Typing..." .text none none]
      ∧ ∃ r : Msg, r.sender = .assistant
          ∧ (handleSend netEmpty supplyW ⟨[], "hi", false⟩).final.messages
            = [createMessage "0" "t" .user "hi" .text none none, r] := by
  have h := C2_typing_placeholder netEmpty supplyW ⟨[], "hi", false⟩
    (by decide) (by decide) (by intro m hm; simp at hm)
  simpa using h

/-- Appending two messages with fresh distinct ids, timestamps at or after
the last one, and well-formed plugin fields preserves the transcript
invariant. -/
theorem transcriptInvariant_append2 (l : List Msg) (a b : Msg)
    (hinv : transcriptInvariant l) (hab : a.id ≠ b.id)
    (hfa : ∀ m ∈ l, m.id ≠ a.id) (hfb : ∀ m ∈ l, m.id ≠ b.id)
    (hlast : ∀ m ∈ l.getLast?, m.timestamp ≤ a.timestamp)
    (hts : a.timestamp ≤ b.timestamp)
    (hpa : pluginFieldsOk a) (hpb : pluginFieldsOk b) :
    transcriptInvariant (l ++ [a, b]) := by
  obtain ⟨hnd, hch, hpl⟩ := hinv
  refine ⟨?_, ?_, ?_⟩
  · rw [List.map_append, List.nodup_append]
    refine ⟨hnd, by simp [hab], ?_⟩
    intro x hx hx2
    obtain ⟨m, hm, rfl⟩ := List.mem_map.mp hx
    rcases (by simpa using hx2 : m.id = a.id ∨ m.id = b.id) with h' | h'
    exacts [hfa m hm h', hfb m hm h']
  · rw [List.chain'_append]
    refine ⟨hch, List.chain'_pair.mpr hts, ?_⟩
    intro x hx y hy
    rcases (by simpa using hy : a = y) with rfl
    exact hlast x hx
  · intro m hm
    rcases List.mem_append.mp hm with h' | h'
    · exact hpl m h'
    · rcases (by simpa using h' : m = a ∨ m = b) with rfl | rfl
      exacts [hpa, hpb]

/-- C8: one `handleSend` step preserves the transcript invariant — at both
observable states (after the synchronous appends and after the callback):
message ids stay unique, each appended message's timestamp is at or after
the previous message's, and plugin fields appear only on plugin-typed
messages — given that the id supply is fresh and the clock non-decreasing. -/
theorem C8_invariant_preserved (net : Net) (supply : Nat → String × String)
    (st : ChatState) (hinv : transcriptInvariant st.messages)
    (hids : (supply 0).1 ≠ (supply 1).1 ∧ (supply 0).1 ≠ (supply 2).1
      ∧ (supply 1).1 ≠ (supply 2).1)
    (hfresh : ∀ m ∈ st.messages,
      m.id ≠ (supply 0).1 ∧ m.id ≠ (supply 1).1 ∧ m.id ≠ (supply 2).1)
    (hlast : ∀ m ∈ st.messages.getLast?, m.timestamp ≤ (supply 0).2)
    (hts : (supply 0).2 ≤ (supply 1).2 ∧ (supply 1).2 ≤ (supply 2).2) :
    transcriptInvariant (handleSend net supply st).mid.messages
      ∧ transcriptInvariant (handleSend net supply st).final.messages := by
  by_cases h : jsTrim st.input = ""
  · have he : handleSend net supply st = ⟨st, st, []⟩ := by simp [handleSend, h]
    rw [he]
    exact ⟨hinv, hinv⟩
  · obtain ⟨h1, r, hs, hid, htsr, hpl, h2⟩ :=
      handleSend_run net supply st h hids.1 (fun m hm => (hfresh m hm).2.1)
    rw [h1, h2]
    constructor
    · exact transcriptInvariant_append2 st.messages _ _ hinv hids.1
        (fun m hm => (hfresh m hm).1) (fun m hm => (hfresh m hm).2.1)
        hlast hts.1
        (by simp [pluginFieldsOk, createMessage]) (by simp [pluginFieldsOk, createMessage])
    · refine transcriptInvariant_append2 st.messages _ _ hinv ?_
        (fun m hm => (hfresh m hm).1) ?_ hlast ?_
        (by simp [pluginFieldsOk, createMessage]) hpl
      · rw [hid]
        exact hids.2.1
      · intro m hm
        rw [hid]
        exact (hfresh m hm).2.2
      · rw [htsr]
        exact le_trans hts.1 hts.2

/-- C8 witness: the theorem at input `hi` over the empty transcript, with
distinct supplied ids and a constant clock. -/
theorem C8_invariant_preserved_witness :
    transcriptInvariant (handleSend netEmpty supplyW ⟨[], "hi", false⟩).mid.messages
      ∧ transcriptInvariant (handleSend netEmpty supplyW ⟨[], "hi", false⟩).final.messages :=
  C8_invariant_preserved netEmpty supplyW ⟨[], "hi", false⟩
    (by simp [transcriptInvariant])
    ⟨by decide, by decide, by decide⟩
    (by intro m hm; simp at hm)
    (by intro m hm; simp at hm)
    ⟨le_refl _, le_refl _⟩

/-- The split scan never produces an empty list of segments. -/
theorem jsSplitF_ne_nil (sep : List Char) (fuel : Nat) (l : List Char) :
    jsSplitF sep fuel l ≠ [] := by
  match fuel, l with
  | 0, _ => simp [jsSplitF]
  | _ + 1, [] => simp [jsSplitF]
  | fuel + 1, c :: cs =>
    rw [jsSplitF]
    split
    · simp
    · split <;> simp

/-- With enough fuel, the first segment of the split is exactly the text
before the first occurrence of the (non-empty) separator. -/
theorem jsSplitF_head (sep : List Char) (hsep : sep ≠ []) :
    ∀ (fuel : Nat) (l : List Char), l.length < fuel →
      (jsSplitF sep fuel l)[0]? = some (beforeFirstOcc sep l) := by
  intro fuel
  induction fuel with
  | zero => intro l hl; exact absurd hl (Nat.not_lt_zero _)
  | succ n ih =>
    intro l hl
    match l with
    | [] => simp [jsSplitF, beforeFirstOcc]
    | c :: cs =>
      rw [jsSplitF]
      have hse : sep.isEmpty = false := by simp [List.isEmpty_iff, hsep]
      by_cases hp : sep.isPrefixOf (c :: cs) = true
      · rw [if_pos (by simp [hse, hp])]
        simp [beforeFirstOcc, hp]
      · have hpf : sep.isPrefixOf (c :: cs) = false := Bool.eq_false_iff.mpr hp
        rw [if_neg (by simp [hpf])]
        rcases hsplit : jsSplitF sep n cs with _ | ⟨hh, tt⟩
        · exact absurd hsplit (jsSplitF_ne_nil sep n cs)
        · have ihcs := ih cs (by simp at hl; omega)
          rw [hsplit] at ihcs
          simp only [List.getElem?_cons_zero, Option.some_inj] at ihcs
          simp [beforeFirstOcc, hpf, ihcs]

/-- With enough fuel, on any text containing the (non-empty) separator, the
second segment of the split is the text strictly between the first
occurrence and the following one (to the end if there is no second
occurrence). -/
theorem jsSplitF_get1 (sep : List Char) (hsep : sep ≠ []) :
    ∀ (fuel : Nat) (l : List Char), l.length < fuel → containsSub sep l = true →
      (jsSplitF sep fuel l)[1]?
        = some (beforeFirstOcc sep (afterFirstOcc sep l)) := by
  intro fuel
  induction fuel with
  | zero => intro l hl _; exact absurd hl (Nat.not_lt_zero _)
  | succ n ih =>
    intro l hl hcon
    match l with
    | [] =>
      rw [containsSub] at hcon
      rw [List.isEmpty_iff] at hcon
      exact absurd hcon hsep
    | c :: cs =>
      rw [jsSplitF]
      have hse : sep.isEmpty = false := by simp [List.isEmpty_iff, hsep]
      have hlenpos : 1 ≤ sep.length := by
        cases sep
        · exact absurd rfl hsep
        · simp
      by_cases hp : sep.isPrefixOf (c :: cs) = true
      · rw [if_pos (by simp [hse, hp])]
        have hlen : ((c :: cs).drop sep.length).length < n := by
          simp [List.length_drop] at *
          omega
        have hh := jsSplitF_head sep hsep n ((c :: cs).drop sep.length) hlen
        simp only [List.getElem?_cons_succ]
        rw [hh]
        simp [afterFirstOcc, hp]
      · have hpf : sep.isPrefixOf (c :: cs) = false := Bool.eq_false_iff.mpr hp
        rw [if_neg (by simp [hpf])]
        have hcon' : containsSub sep cs = true := by
          rw [containsSub, hpf] at hcon
          simpa using hcon
        rcases hsplit : jsSplitF sep n cs with _ | ⟨hh, tt⟩
        · exact absurd hsplit (jsSplitF_ne_nil sep n cs)
        · have ihcs := ih cs (by simp at hl; omega) hcon'
          rw [hsplit] at ihcs
          have e1 : ((c :: hh) :: tt)[1]? = (hh :: tt)[1]? := by
            simp [List.getElem?_cons_succ]
          rw [e1, ihcs]
          simp [afterFirstOcc, hpf]

/-- C5 (counterexample): on input `weather in st. louis` the rewriter yields
`/weather st louis` — the `.` inside the city is removed, because the global
regex replace strips `? . ,` everywhere, not only at the end — and not
`/weather st. louis` with inner punctuation preserved as claimed. -/
theorem C5_counterexample :
    parseNaturalLanguage "weather in st. louis" = some "/weather st louis"
      ∧ parseNaturalLanguage "weather in st. louis" ≠ some "/weather st. louis" :=
  ⟨rfl, by decide⟩

/-- C5 (amended): for every input whose lowercased form contains
`weather in`, the rewriter yields `/weather x` where `x` is the segment of
the lowercased text strictly after the first occurrence of the phrase (and
before its next occurrence, if any), trimmed, and with every occurrence of
`? . ,` removed — not only trailing ones. -/
theorem C5_weather_rewrite_amended (text : String)
    (h : containsSub "weather in".toList (jsToLower text).toList = true) :
    parseNaturalLanguage text
      = some ("/weather " ++ removePunct (jsTrim (String.mk (beforeFirstOcc
          "weather in".toList (afterFirstOcc "weather in".toList
            (jsToLower text).toList))))) := by
  have hc : containsStr (jsToLower text) "weather in" = true := h
  have hg := jsSplitF_get1 "weather in".toList (by decide)
    ((jsToLower text).toList.length + 1) (jsToLower text).toList
    (Nat.lt_succ_self _) h
  unfold parseNaturalLanguage
  rw [if_pos hc]
  unfold jsSplit
  rw [List.getElem?_map, hg]
  rfl

/-- C5 witness: the amended theorem at the input `weather in st. louis?`. -/
theorem C5_weather_rewrite_amended_witness :
    containsSub "weather in".toList (jsToLower "weather in st. louis?").toList = true
      ∧ parseNaturalLanguage "weather in st. louis?"
        = some ("/weather " ++ removePunct (jsTrim (String.mk (beforeFirstOcc
            "weather in".toList (afterFirstOcc "weather in".toList
              (jsToLower "weather in st. louis?").toList))))) :=
  ⟨by decide, C5_weather_rewrite_amended "weather in st. louis?" (by decide)⟩

end Chatbot
